import Mathlib

/-!
# Verification of the risk-heuristics engine (`src/security/heuristics.py`)

Shallow embedding of the security heuristics module of the metadata-analyzer
repository: the metadata risk scanner (`check_metadata_risk`), the PDF and
Office structural scanners (`scan_pdf_structure`, `scan_office_structure`),
the MIME dispatcher (`check_file_risk`) and the aggregator (`analyze_risk`).

Modelling decisions:
* Byte strings (PDF contents, keywords) are modelled as Lean `String`s over
  their ASCII-transparent character representation; the Python `in` operator
  on bytes becomes contiguous-subsequence containment on the character lists.
* `re.search(pat, s, re.IGNORECASE)` for the patterns of the table — which
  are all either literal strings (with `\(` / `\.` escapes resolved) or the
  single lazy-wildcard pattern `<script.*?>` — is modelled by
  case-folded substring search, resp. an explicit "`<script` followed by `>`
  with no newline in between" matcher (`.` does not match a newline).
* Reading a file is fallible: a PDF file is an `Option String` (`none` =
  `open`/`read` raised), an Office file is an `Option (List String)`
  (`none` = not a valid ZIP container, or the ZIP library raised; both paths
  return no indicators in the source).
* `list(set(indicators))` fixes no enumeration order (Python string hashing
  is seed-dependent), so `scan_pdf_structure` is embedded as a relation:
  its output is any duplicate-free list with exactly the elements of the
  accumulated indicator list.
-/

namespace Heuristics

/-! ## Contiguous subsequence search (Python `in` on `bytes`/`str`) -/

/-- `startsWithChars needle hay`: `needle` is an initial segment of `hay`. -/
def startsWithChars : List Char → List Char → Bool
  | [], _ => true
  | _ :: _, [] => false
  | a :: as, b :: bs => a == b && startsWithChars as bs

/-- `containsChars needle hay`: `needle` occurs contiguously inside `hay`
(the semantics of Python's `needle in hay`). -/
def containsChars (needle : List Char) : List Char → Bool
  | [] => startsWithChars needle []
  | c :: rest => startsWithChars needle (c :: rest) || containsChars needle rest

/-- Python `needle in hay` on strings/bytes. -/
def strContains (hay needle : String) : Bool :=
  containsChars needle.data hay.data

/-- Python `hay.endswith(needle)`. -/
def strEndsWith (hay needle : String) : Bool :=
  startsWithChars needle.data.reverse hay.data.reverse

/-! ## The metadata pattern table and its regex semantics -/

/-- The shapes of regular expressions occurring in
`SUSPICIOUS_METADATA_PATTERNS`: either a literal string (after resolving the
`\(` and `\.` escapes) or the lazy tag pattern `<script.*?>`. -/
inductive PatKind where
  | scriptTag
  | literal (lit : String)
deriving DecidableEq

/-- Is there a `>` before the first newline?  (The tail condition of a match
of `<script.*?>`: `.` matches any character except `\n`.) -/
def gtBeforeNewline : List Char → Bool
  | [] => false
  | c :: rest =>
    if c = '>' then true else if c = '\n' then false else gtBeforeNewline rest

/-- `re.search("<script.*?>", ·)` on an (already case-folded) character
list: some occurrence of `<script` is followed by a `>` with no intervening
newline. -/
def scriptTagScan : List Char → Bool
  | [] => false
  | c :: rest =>
    (startsWithChars "<script".data (c :: rest) && gtBeforeNewline ((c :: rest).drop 7))
      || scriptTagScan rest

/-- `re.search(pattern, value, re.IGNORECASE)` for the pattern shapes of the
metadata table: both pattern and subject are case-folded. -/
def patMatch (p : PatKind) (s : String) : Bool :=
  match p with
  | .scriptTag => scriptTagScan (s.data.map Char.toLower)
  | .literal lit => containsChars (lit.data.map Char.toLower) (s.data.map Char.toLower)

/-- The module-level table `SUSPICIOUS_METADATA_PATTERNS`, in source order. -/
def SUSPICIOUS_METADATA_PATTERNS : List (PatKind × String) :=
  [ (.scriptTag, "Posible inyección de script HTML"),
    (.literal "javascript:", "Posible esquema URI de JavaScript"),
    (.literal "eval(", "Uso de eval() (ejecución de código dinámico)"),
    (.literal "base64_decode", "Decodificación Base64 (común en obfuscación)"),
    (.literal "cmd.exe", "Referencia a línea de comandos de Windows"),
    (.literal "powershell", "Referencia a PowerShell"),
    (.literal "/bin/sh", "Referencia a shell de Unix"),
    (.literal "auto_open", "Macro de auto-ejecución (Office)"),
    (.literal "Document_Open", "Macro de auto-ejecución (Office)") ]

/-! ## The metadata value tree -/

mutual
/-- The untyped metadata tree: string leaves, scalar leaves (number, boolean,
null), mappings and sequences. -/
inductive Meta where
  | str (s : String)
  | num (n : Int)
  | boolean (b : Bool)
  | null
  | obj (kvs : MetaDict)
  | arr (items : MetaList)
/-- The (ordered) key/value entries of a metadata mapping. -/
inductive MetaDict where
  | nil
  | cons (k : String) (v : Meta) (rest : MetaDict)
/-- The items of a metadata sequence. -/
inductive MetaList where
  | nil
  | cons (v : Meta) (rest : MetaList)
end

/-- Path extension for a mapping key: `f"{path}.{k}" if path else k`. -/
def childPath (path k : String) : String :=
  if path = "" then k else path ++ "." ++ k

/-- Path extension for a sequence index: `f"{path}[{i}]"`. -/
def indexPath (path : String) (i : Nat) : String :=
  path ++ "[" ++ toString i ++ "]"

/-- The indicator emitted for an over-long string value
(`f"Valor inusualmente largo en '{path}' ({len(value)} caracteres)"`). -/
def longValueIndicator (path : String) (n : Nat) : String :=
  "Valor inusualmente largo en \x27" ++ path ++ "\x27 (" ++ toString n ++ " caracteres)"

/-- The indicator emitted for a pattern match
(`f"Detectado '{desc}' en '{path}'"`). -/
def patternIndicator (desc path : String) : String :=
  "Detectado \x27" ++ desc ++ "\x27 en \x27" ++ path ++ "\x27"

/-- The indicators contributed by the pattern loop on one string leaf. -/
def patternIndicators (s path : String) : List String :=
  (SUSPICIOUS_METADATA_PATTERNS.filter (fun pd => patMatch pd.1 s)).map
    (fun pd => patternIndicator pd.2 path)

mutual
/-- The inner `recursive_scan(value, path)` of `check_metadata_risk`:
indicators are appended in traversal order. -/
def recursiveScan : Meta → String → List String
  | .str s, path =>
    (if s.length > 5000 then [longValueIndicator path s.length] else [])
      ++ patternIndicators s path
  | .num _, _ => []
  | .boolean _, _ => []
  | .null, _ => []
  | .obj kvs, path => scanDict kvs path
  | .arr items, path => scanMetaList items path 0
/-- Traversal of a mapping's entries, in order. -/
def scanDict : MetaDict → String → List String
  | .nil, _ => []
  | .cons k v rest, path => recursiveScan v (childPath path k) ++ scanDict rest path
/-- Traversal of a sequence's items with running index `i`. -/
def scanMetaList : MetaList → String → Nat → List String
  | .nil, _, _ => []
  | .cons v rest, path, i =>
    recursiveScan v (indexPath path i) ++ scanMetaList rest path (i + 1)
end

/-- `check_metadata_risk(metadata)`: scan the whole tree from the empty path. -/
def check_metadata_risk (metadata : Meta) : List String :=
  recursiveScan metadata ""

/-! ## PDF structural scan -/

/-- The module-level table `PDF_THREAT_KEYWORDS`, in insertion order (Python
dict iteration order). -/
def PDF_THREAT_KEYWORDS : List (String × String) :=
  [ ("/JavaScript", "Contiene código JavaScript"),
    ("/JS", "Contiene código JavaScript"),
    ("/OpenAction", "Ejecuta una acción al abrir el documento"),
    ("/Launch", "Intenta lanzar un programa externo"),
    ("/RichMedia", "Contenido multimedia enriquecido (posible vector de ataque)") ]

/-- The plain per-keyword indicator
(`f"Estructura PDF sospechosa: {desc} ({keyword.decode()})"`). -/
def pdfPlainIndicator (k d : String) : String :=
  "Estructura PDF sospechosa: " ++ d ++ " (" ++ k ++ ")"

/-- The combined `/OpenAction` indicator
(`f"Estructura PDF sospechosa: {desc} combinada con scripts/lanzadores"`). -/
def pdfCombinedIndicator (d : String) : String :=
  "Estructura PDF sospechosa: " ++ d ++ " combinada con scripts/lanzadores"

/-- The keyword loop of `scan_pdf_structure`: one pass over
`PDF_THREAT_KEYWORDS`, appending for each matching keyword either the plain
indicator or — for `/OpenAction` — the combined indicator, the latter only
when `/JavaScript`, `/JS` or `/Launch` is also present. -/
def pdfKeywordLoop (content : String) : List String :=
  (PDF_THREAT_KEYWORDS.map (fun kd =>
    if strContains content kd.1 then
      if kd.1 = "/OpenAction" then
        if strContains content "/JavaScript" || strContains content "/JS"
            || strContains content "/Launch" then
          [pdfCombinedIndicator kd.2]
        else []
      else [pdfPlainIndicator kd.1 kd.2]
    else [])).flatten

/-- The `indicators` list accumulated by `scan_pdf_structure` before the
final `list(set(...))`: the source first tests `b"jsPDF" in content` — the
body of that branch is `pass`, so control reaches the keyword loop along
both arms. -/
def pdfScanBody (content : String) : List String :=
  if strContains content "jsPDF" then pdfKeywordLoop content
  else pdfKeywordLoop content

/-- The keyword loop with the jsPDF exemption branch removed — the
comparison point for the exemption-is-a-no-op claim. -/
def pdfScanNoExemption (content : String) : List String :=
  pdfKeywordLoop content

/-- `ys` is a possible value of Python's `list(set(xs))`: duplicate-free,
with exactly the elements of `xs`.  The enumeration order of a `set` of
strings is not determined by the program (it depends on the process's hash
seed), so the conversion is a relation. -/
def SetToList (xs ys : List String) : Prop :=
  ys.Nodup ∧ ∀ a, a ∈ ys ↔ a ∈ xs

/-- `scan_pdf_structure(file_path)` as a relation between the file's
contents and the returned list.  `none` models `open`/`read` raising: the
function's own `except Exception: pass` then skips to
`return list(set(indicators))` with `indicators == []`. -/
def scan_pdf_structure (bytes? : Option String) (out : List String) : Prop :=
  match bytes? with
  | none => out = []
  | some content => SetToList (pdfScanBody content) out

/-! ## Office (OOXML) structural scan -/

/-- The VBA-macro indicator. -/
def vbaIndicator : String := "Contiene Macros VBA (vbaProject.bin)"

/-- The embedded-OLE indicator
(`f"Contiene {len(ole_files)} objeto(s) OLE incrustado(s)"`). -/
def oleIndicator (n : Nat) : String :=
  "Contiene " ++ toString n ++ " objeto(s) OLE incrustado(s)"

/-- `scan_office_structure(file_path)`.  The argument is the file seen
through the ZIP library: `none` when `zipfile.is_zipfile` is false or the
ZIP library raised (both return no indicators in the source), `some names`
for the archive's entry-name list. -/
def scan_office_structure (zip? : Option (List String)) : List String :=
  match zip? with
  | none => []
  | some names =>
    (if names.any (fun name => strEndsWith name "vbaProject.bin") then
      [vbaIndicator]
    else [])
      ++ (let oleFiles := names.filter (fun f => strContains f "embeddings/oleObject")
          if oleFiles.length ≠ 0 then [oleIndicator oleFiles.length] else [])

/-! ## MIME dispatcher and aggregator -/

/-- A file on disk, as seen through the two access paths the scanners use:
its raw bytes (`none` = the read raised) and its ZIP view (`none` = not a
valid ZIP container or the ZIP library raised). -/
structure FileModel where
  bytes? : Option String
  zip? : Option (List String)

/-- The OOXML MIME types dispatched to the Office scan, in source order. -/
def OFFICE_MIMES : List String :=
  [ "application/vnd.openxmlformats-officedocument.wordprocessingml.document",
    "application/vnd.openxmlformats-officedocument.spreadsheetml.sheet",
    "application/vnd.openxmlformats-officedocument.presentationml.presentation" ]

/-- `check_file_risk(file_path, mime_type)` as a relation (relational only
because of the PDF dedup).  The source wraps the dispatch in
`try/except`, appending an error indicator on an exception; both scanners
catch every exception internally, so that handler is unreachable and the
embedding has no error branch. -/
def check_file_risk (f : FileModel) (mime : String) (out : List String) : Prop :=
  if mime = "application/pdf" then
    scan_pdf_structure f.bytes? out
  else if mime ∈ OFFICE_MIMES then
    out = scan_office_structure f.zip?
  else
    out = []

/-- The risk report returned by `analyze_risk`. -/
structure RiskReport where
  is_suspicious : Bool
  indicators : List String
deriving DecidableEq

/-- `analyze_risk(file_path, metadata, mime_type)`: metadata-scan findings,
then structure-scan findings, and the flag `len(findings) > 0`. -/
def analyze_risk (f : FileModel) (metadata : Meta) (mime : String)
    (r : RiskReport) : Prop :=
  ∃ structOut, check_file_risk f mime structOut ∧
    r.indicators = check_metadata_risk metadata ++ structOut ∧
    r.is_suspicious = decide (0 < r.indicators.length)

/-! ## Auxiliary notions used by the statements -/

mutual
/-- All string leaves of a metadata tree, in traversal order. -/
def strLeaves : Meta → List String
  | .str s => [s]
  | .num _ => []
  | .boolean _ => []
  | .null => []
  | .obj kvs => strLeavesDict kvs
  | .arr items => strLeavesList items
/-- String leaves below a mapping's entries. -/
def strLeavesDict : MetaDict → List String
  | .nil => []
  | .cons _ v rest => strLeaves v ++ strLeavesDict rest
/-- String leaves below a sequence's items. -/
def strLeavesList : MetaList → List String
  | .nil => []
  | .cons v rest => strLeaves v ++ strLeavesList rest
end

/-- A string leaf that triggers nothing: at most 5000 characters and no
pattern of the table matches. -/
def CleanString (s : String) : Prop :=
  s.length ≤ 5000 ∧ ∀ pd ∈ SUSPICIOUS_METADATA_PATTERNS, patMatch pd.1 s = false

instance decCleanString (s : String) : Decidable (CleanString s) :=
  inferInstanceAs (Decidable (_ ∧ _))

/-! ## Helper lemmas -/

theorem setToList_dedup (xs : List String) : SetToList xs xs.dedup :=
  ⟨List.nodup_dedup xs, fun _ => List.mem_dedup⟩

theorem setToList_perm {xs ys zs : List String} (h1 : SetToList xs ys)
    (h2 : SetToList xs zs) : ys.Perm zs :=
  (List.perm_ext_iff_of_nodup h1.1 h2.1).mpr fun a => (h1.2 a).trans (h2.2 a).symm

theorem check_file_risk_total (f : FileModel) (mime : String) :
    ∃ out, check_file_risk f mime out := by
  by_cases h1 : mime = "application/pdf"
  · cases hb : f.bytes? with
    | none => exact ⟨[], by simp [check_file_risk, h1, scan_pdf_structure, hb]⟩
    | some c =>
      refine ⟨(pdfScanBody c).dedup, ?_⟩
      simp only [check_file_risk, h1, if_pos, scan_pdf_structure, hb]
      exact setToList_dedup _
  · by_cases h2 : mime ∈ OFFICE_MIMES
    · exact ⟨scan_office_structure f.zip?, by simp [check_file_risk, h1, h2]⟩
    · exact ⟨[], by simp [check_file_risk, h1, h2]⟩

theorem patternIndicator_head (d path : String) :
    (patternIndicator d path).data.head? = some 'D' := rfl

theorem longValueIndicator_head (path : String) (n : Nat) :
    (longValueIndicator path n).data.head? = some 'V' := rfl

theorem mem_patternIndicators_head {x s path : String}
    (hx : x ∈ patternIndicators s path) : x.data.head? = some 'D' := by
  obtain ⟨pd, _, rfl⟩ := List.mem_map.mp hx
  exact patternIndicator_head pd.2 path

mutual
theorem recursiveScan_eq_nil : ∀ (t : Meta) (path : String),
    (∀ s ∈ strLeaves t, CleanString s) → recursiveScan t path = []
  | .str s, path, h => by
    obtain ⟨hlen, hpat⟩ := h s (by simp [strLeaves])
    have h1 : ¬s.length > 5000 := by omega
    have h2 : patternIndicators s path = [] := by
      unfold patternIndicators
      rw [List.filter_eq_nil_iff.mpr (fun pd hpd => by simp [hpat pd hpd])]
      rfl
    simp [recursiveScan, h1, h2]
  | .num _, _, _ => rfl
  | .boolean _, _, _ => rfl
  | .null, _, _ => rfl
  | .obj kvs, path, h => scanDict_eq_nil kvs path h
  | .arr items, path, h => scanMetaList_eq_nil items path 0 h
theorem scanDict_eq_nil : ∀ (d : MetaDict) (path : String),
    (∀ s ∈ strLeavesDict d, CleanString s) → scanDict d path = []
  | .nil, _, _ => rfl
  | .cons k v rest, path, h => by
    have hv := recursiveScan_eq_nil v (childPath path k)
      (fun s hs => h s (by simp [strLeavesDict, hs]))
    have hr := scanDict_eq_nil rest path
      (fun s hs => h s (by simp [strLeavesDict, hs]))
    simp [scanDict, hv, hr]
theorem scanMetaList_eq_nil : ∀ (l : MetaList) (path : String) (i : Nat),
    (∀ s ∈ strLeavesList l, CleanString s) → scanMetaList l path i = []
  | .nil, _, _, _ => rfl
  | .cons v rest, path, i, h => by
    have hv := recursiveScan_eq_nil v (indexPath path i)
      (fun s hs => h s (by simp [strLeavesList, hs]))
    have hr := scanMetaList_eq_nil rest path (i + 1)
      (fun s hs => h s (by simp [strLeavesList, hs]))
    simp [scanMetaList, hv, hr]
end

/-! ## Claims about the metadata scanner and the aggregator -/

/-- C1: every report produced by `analyze_risk` lists the metadata-scan
indicators first, then the structure-scan indicators, and its
`is_suspicious` flag holds exactly when the indicator sequence is
non-empty; moreover a report always exists. -/
theorem analyze_risk_concat_and_flag (f : FileModel) (metadata : Meta) (mime : String) :
    (∃ r, analyze_risk f metadata mime r) ∧
    ∀ r, analyze_risk f metadata mime r →
      (∃ structOut, check_file_risk f mime structOut ∧
        r.indicators = check_metadata_risk metadata ++ structOut) ∧
      (r.is_suspicious = true ↔ 0 < r.indicators.length) := by
  constructor
  · obtain ⟨out, hout⟩ := check_file_risk_total f mime
    exact ⟨⟨decide (0 < (check_metadata_risk metadata ++ out).length),
      check_metadata_risk metadata ++ out⟩, out, hout, rfl, rfl⟩
  · rintro r ⟨s, hs, hind, hflag⟩
    exact ⟨⟨s, hs, hind⟩, by rw [hflag]; simp⟩

/-- Witness for C1 at a concrete input: a plain-text file with no metadata
gives the empty indicator list and a false flag. -/
theorem analyze_risk_concat_and_flag_witness :
    (∃ structOut, check_file_risk ⟨some "hello", none⟩ "text/plain" structOut ∧
      (⟨false, []⟩ : RiskReport).indicators = check_metadata_risk .null ++ structOut) ∧
    ((⟨false, []⟩ : RiskReport).is_suspicious = true ↔
      0 < (⟨false, []⟩ : RiskReport).indicators.length) :=
  (analyze_risk_concat_and_flag ⟨some "hello", none⟩ .null "text/plain").2 ⟨false, []⟩
    ⟨[], by simp [check_file_risk, OFFICE_MIMES], by simp [check_metadata_risk, recursiveScan], rfl⟩

/-- C6: a metadata tree all of whose string leaves are at most 5000
characters long and match no pattern of the table scans to no indicators,
and scalar leaves (number, boolean, null) are inert at every path. -/
theorem check_metadata_risk_clean (t : Meta) (hclean : ∀ s ∈ strLeaves t, CleanString s) :
    check_metadata_risk t = [] ∧
    (∀ (n : Int) (path : String), recursiveScan (.num n) path = []) ∧
    (∀ (b : Bool) (path : String), recursiveScan (.boolean b) path = []) ∧
    (∀ path : String, recursiveScan .null path = []) :=
  ⟨recursiveScan_eq_nil t "" hclean, fun _ _ => rfl, fun _ _ => rfl, fun _ => rfl⟩

/-- Witness for C6: a nested tree of scalars and a harmless string yields
no indicators. -/
theorem check_metadata_risk_clean_witness :
    check_metadata_risk (.obj (.cons "a" (.num 3) (.cons "b"
      (.arr (.cons (.boolean true) (.cons .null (.cons (.str "hola") .nil)))) .nil))) = [] :=
  (check_metadata_risk_clean _ (by decide)).1

/-- C7: the over-length indicator for a string leaf is emitted exactly when
the leaf's character count strictly exceeds 5000. -/
theorem longValueIndicator_iff (s path : String) :
    longValueIndicator path s.length ∈ recursiveScan (.str s) path ↔ 5000 < s.length := by
  constructor
  · intro h
    by_contra hlen
    have h1 : ¬s.length > 5000 := by omega
    have hscan : recursiveScan (.str s) path = patternIndicators s path := by
      simp [recursiveScan, h1]
    rw [hscan] at h
    have hd := mem_patternIndicators_head h
    rw [longValueIndicator_head] at hd
    simp at hd
  · intro h
    have hscan : recursiveScan (.str s) path =
        longValueIndicator path s.length :: patternIndicators s path := by
      simp [recursiveScan, h]
    rw [hscan]
    exact List.mem_cons_self _ _

/-- Witness for C7 (the spec's concrete test): a 5001-character string at
path `a.b` yields the length indicator naming `a.b` and `5001`, and a
5000-character string does not. -/
theorem longValueIndicator_iff_witness :
    (longValueIndicator "a.b" 5001 ∈
        recursiveScan (.str (String.mk (List.replicate 5001 'x'))) "a.b" ∧
      longValueIndicator "a.b" 5001 = "Valor inusualmente largo en \x27a.b\x27 (5001 caracteres)") ∧
    ¬longValueIndicator "a.b" 5000 ∈
        recursiveScan (.str (String.mk (List.replicate 5000 'x'))) "a.b" := by
  have hlen : (String.mk (List.replicate 5001 'x')).length = 5001 := by
    show (List.replicate 5001 'x').length = 5001
    rw [List.length_replicate]
  have hlen' : (String.mk (List.replicate 5000 'x')).length = 5000 := by
    show (List.replicate 5000 'x').length = 5000
    rw [List.length_replicate]
  refine ⟨⟨?_, rfl⟩, ?_⟩
  · have := (longValueIndicator_iff (String.mk (List.replicate 5001 'x')) "a.b").mpr
      (by rw [hlen]; omega)
    rwa [hlen] at this
  · intro hmem
    have := (longValueIndicator_iff (String.mk (List.replicate 5000 'x')) "a.b").mp
      (by rwa [hlen'])
    omega

/-- C8: a pattern of the table matching a string leaf (case-insensitively,
anywhere in the string) makes the scanner emit the indicator carrying the
pattern's description and the leaf's path. -/
theorem patternIndicator_mem (s path : String) (pat : PatKind) (d : String)
    (hmem : (pat, d) ∈ SUSPICIOUS_METADATA_PATTERNS) (hmatch : patMatch pat s = true) :
    patternIndicator d path ∈ recursiveScan (.str s) path := by
  have hp : patternIndicator d path ∈ patternIndicators s path :=
    List.mem_map.mpr ⟨(pat, d), List.mem_filter.mpr ⟨hmem, hmatch⟩, rfl⟩
  have hscan : recursiveScan (.str s) path =
      (if s.length > 5000 then [longValueIndicator path s.length] else [])
        ++ patternIndicators s path := by
    simp [recursiveScan]
  rw [hscan]
  exact List.mem_append_right _ hp

/-- Witness for C8 (the spec's concrete test): `<script>alert(1)</script>`
under root-level key `comment` yields the script-injection indicator naming
`comment`. -/
theorem patternIndicator_mem_witness :
    patternIndicator "Posible inyección de script HTML" "comment" ∈
      check_metadata_risk (.obj (.cons "comment"
        (.str "<script>alert(1)</script>") .nil)) := by
  have h := patternIndicator_mem "<script>alert(1)</script>" "comment" .scriptTag
    "Posible inyección de script HTML" (by decide) (by decide)
  simpa [check_metadata_risk, scanDict, childPath] using h

/-! ## Helper lemmas for the PDF structural scan -/

theorem pdfScanBody_eq (c : String) : pdfScanBody c = pdfKeywordLoop c := by
  unfold pdfScanBody; split <;> rfl

theorem pdfKeywordLoop_shape (c : String) :
    pdfKeywordLoop c =
      (if strContains c "/JavaScript" then
        [pdfPlainIndicator "/JavaScript" "Contiene código JavaScript"] else [])
      ++ ((if strContains c "/JS" then
        [pdfPlainIndicator "/JS" "Contiene código JavaScript"] else [])
      ++ ((if strContains c "/OpenAction" then
        (if strContains c "/JavaScript" || strContains c "/JS" || strContains c "/Launch" then
          [pdfCombinedIndicator "Ejecuta una acción al abrir el documento"] else [])
        else [])
      ++ ((if strContains c "/Launch" then
        [pdfPlainIndicator "/Launch" "Intenta lanzar un programa externo"] else [])
      ++ (if strContains c "/RichMedia" then
        [pdfPlainIndicator "/RichMedia" "Contenido multimedia enriquecido (posible vector de ataque)"] else [])))) := by
  simp [pdfKeywordLoop, PDF_THREAT_KEYWORDS]

theorem mem_pdfKeywordLoop_of_keyword {c k d : String}
    (hmem : (k, d) ∈ PDF_THREAT_KEYWORDS) (hne : k ≠ "/OpenAction")
    (hk : strContains c k = true) :
    pdfPlainIndicator k d ∈ pdfKeywordLoop c := by
  rw [pdfKeywordLoop_shape]
  simp only [PDF_THREAT_KEYWORDS, List.mem_cons, List.not_mem_nil, or_false,
    Prod.mk.injEq] at hmem
  rcases hmem with ⟨rfl, rfl⟩ | ⟨rfl, rfl⟩ | ⟨rfl, rfl⟩ | ⟨rfl, rfl⟩ | ⟨rfl, rfl⟩
  · simp [hk]
  · simp [hk]
  · exact absurd rfl hne
  · simp [hk]
  · simp [hk]

theorem pdfKeywordLoop_eq_nil {c : String}
    (h1 : strContains c "/JavaScript" = false) (h2 : strContains c "/JS" = false)
    (h3 : strContains c "/Launch" = false) (h4 : strContains c "/RichMedia" = false) :
    pdfKeywordLoop c = [] := by
  rw [pdfKeywordLoop_shape]; simp [h1, h2, h3, h4]

theorem setToList_nil_right {out : List String} (h : SetToList [] out) : out = [] :=
  List.eq_nil_iff_forall_not_mem.mpr fun a ha => by simpa using (h.2 a).mp ha

/-! ## Claims about the PDF structural scan -/

/-- C3 (amended): a present keyword other than `/OpenAction` always puts
its plain indicator in the scan's output, and a content containing none of
`/JavaScript`, `/JS`, `/Launch`, `/RichMedia` — in particular one with
`/OpenAction` but none of those — scans to zero indicators.  (The claim's
original zero-indicator case omitted the `/RichMedia` exclusion.) -/
theorem scan_pdf_keyword_policy (c : String) (out : List String)
    (h : scan_pdf_structure (some c) out) :
    (∀ k d, (k, d) ∈ PDF_THREAT_KEYWORDS → k ≠ "/OpenAction" →
      strContains c k = true → pdfPlainIndicator k d ∈ out) ∧
    (strContains c "/OpenAction" = true → strContains c "/JavaScript" = false →
      strContains c "/JS" = false → strContains c "/Launch" = false →
      strContains c "/RichMedia" = false → out = []) := by
  have h' : SetToList (pdfScanBody c) out := h
  constructor
  · intro k d hmem hne hk
    exact (h'.2 _).mpr (by rw [pdfScanBody_eq]; exact mem_pdfKeywordLoop_of_keyword hmem hne hk)
  · intro _ h1 h2 h3 h4
    apply setToList_nil_right
    rwa [pdfScanBody_eq, pdfKeywordLoop_eq_nil h1 h2 h3 h4] at h'

/-- Witness for C3 (the spec's concrete test): `/Launch` alone yields its
indicator, with no `/OpenAction` present. -/
theorem scan_pdf_keyword_policy_witness :
    pdfPlainIndicator "/Launch" "Intenta lanzar un programa externo" ∈
      [pdfPlainIndicator "/Launch" "Intenta lanzar un programa externo"] :=
  (scan_pdf_keyword_policy "/Launch" _
      (by
        show SetToList (pdfScanBody "/Launch") _
        have hb : pdfScanBody "/Launch" =
            [pdfPlainIndicator "/Launch" "Intenta lanzar un programa externo"] := by decide
        rw [hb]
        exact ⟨by simp, fun a => Iff.rfl⟩)).1
    "/Launch" "Intenta lanzar un programa externo" (by decide) (by decide) (by decide)

/-- Counterexample to C3 as stated: the content `/OpenAction/RichMedia`
contains `/OpenAction` and none of `/JavaScript`, `/JS`, `/Launch`, yet the
scan admits the non-empty output `[/RichMedia indicator]`. -/
theorem scan_pdf_openaction_zero_counterexample :
    strContains "/OpenAction/RichMedia" "/OpenAction" = true ∧
    strContains "/OpenAction/RichMedia" "/JavaScript" = false ∧
    strContains "/OpenAction/RichMedia" "/JS" = false ∧
    strContains "/OpenAction/RichMedia" "/Launch" = false ∧
    scan_pdf_structure (some "/OpenAction/RichMedia")
      [pdfPlainIndicator "/RichMedia"
        "Contenido multimedia enriquecido (posible vector de ataque)"] ∧
    [pdfPlainIndicator "/RichMedia"
      "Contenido multimedia enriquecido (posible vector de ataque)"] ≠ ([] : List String) := by
  refine ⟨by decide, by decide, by decide, by decide, ?_, by simp⟩
  show SetToList (pdfScanBody "/OpenAction/RichMedia") _
  have hb : pdfScanBody "/OpenAction/RichMedia" =
      [pdfPlainIndicator "/RichMedia"
        "Contenido multimedia enriquecido (posible vector de ataque)"] := by decide
  rw [hb]
  exact ⟨by simp, fun a => Iff.rfl⟩

theorem eq_of_mem_ite_singleton {a x : String} {p : Prop} [Decidable p]
    (h : a ∈ (if p then [x] else ([] : List String))) : a = x := by
  split at h
  · simpa using h
  · simp at h

/-- C4: when a content contains both `/OpenAction` and `/JavaScript`, the
scan's output carries the combined `/OpenAction` indicator exactly once and
never the plain per-keyword `/OpenAction` indicator. -/
theorem scan_pdf_openaction_combined (c : String) (out : List String)
    (h : scan_pdf_structure (some c) out)
    (hOA : strContains c "/OpenAction" = true)
    (hJS : strContains c "/JavaScript" = true) :
    pdfCombinedIndicator "Ejecuta una acción al abrir el documento" ∈ out ∧
    out.count (pdfCombinedIndicator "Ejecuta una acción al abrir el documento") = 1 ∧
    pdfPlainIndicator "/OpenAction" "Ejecuta una acción al abrir el documento" ∉ out := by
  have h' : SetToList (pdfScanBody c) out := h
  have hmem : pdfCombinedIndicator "Ejecuta una acción al abrir el documento" ∈ out := by
    apply (h'.2 _).mpr
    rw [pdfScanBody_eq, pdfKeywordLoop_shape]
    simp [hOA, hJS]
  refine ⟨hmem, List.count_eq_one_of_mem h'.1 hmem, ?_⟩
  intro hbad
  have hbody := (h'.2 _).mp hbad
  rw [pdfScanBody_eq, pdfKeywordLoop_shape] at hbody
  simp only [hOA, hJS, if_true, Bool.true_or, List.mem_append, List.mem_singleton] at hbody
  rcases hbody with h1 | h1 | h1 | h1 | h1
  · exact absurd h1 (by decide)
  · exact absurd (eq_of_mem_ite_singleton h1) (by decide)
  · exact absurd h1 (by decide)
  · exact absurd (eq_of_mem_ite_singleton h1) (by decide)
  · exact absurd (eq_of_mem_ite_singleton h1) (by decide)

/-- Witness for C4: the content `/OpenAction/JavaScript` scans to the
JavaScript indicator plus one combined indicator, with no plain
`/OpenAction` indicator. -/
theorem scan_pdf_openaction_combined_witness :
    pdfCombinedIndicator "Ejecuta una acción al abrir el documento" ∈
      [pdfPlainIndicator "/JavaScript" "Contiene código JavaScript",
        pdfCombinedIndicator "Ejecuta una acción al abrir el documento"] ∧
    List.count (pdfCombinedIndicator "Ejecuta una acción al abrir el documento")
      [pdfPlainIndicator "/JavaScript" "Contiene código JavaScript",
        pdfCombinedIndicator "Ejecuta una acción al abrir el documento"] = 1 ∧
    pdfPlainIndicator "/OpenAction" "Ejecuta una acción al abrir el documento" ∉
      [pdfPlainIndicator "/JavaScript" "Contiene código JavaScript",
        pdfCombinedIndicator "Ejecuta una acción al abrir el documento"] :=
  scan_pdf_openaction_combined "/OpenAction/JavaScript" _
    (by
      show SetToList (pdfScanBody "/OpenAction/JavaScript") _
      have hb : pdfScanBody "/OpenAction/JavaScript" =
          [pdfPlainIndicator "/JavaScript" "Contiene código JavaScript",
            pdfCombinedIndicator "Ejecuta una acción al abrir el documento"] := by decide
      rw [hb]
      exact ⟨by decide, fun a => Iff.rfl⟩)
    (by decide) (by decide)

/-- C5: the jsPDF exemption branch is a no-op — on any content carrying the
`jsPDF` marker the accumulated indicator list equals that of the scan with
the branch removed, and every present keyword other than `/OpenAction`
still contributes its indicator. -/
theorem pdf_jsPDF_exemption_no_op (c : String) (_hjs : strContains c "jsPDF" = true) :
    pdfScanBody c = pdfScanNoExemption c ∧
    (∀ k d, (k, d) ∈ PDF_THREAT_KEYWORDS → k ≠ "/OpenAction" →
      strContains c k = true → pdfPlainIndicator k d ∈ pdfScanBody c) :=
  ⟨pdfScanBody_eq c, fun _ _ hmem hne hk => by
    rw [pdfScanBody_eq]; exact mem_pdfKeywordLoop_of_keyword hmem hne hk⟩

/-- Witness for C5: a content with the `jsPDF` marker and `/Launch` still
gets the `/Launch` indicator, and its scan equals the branch-removed scan. -/
theorem pdf_jsPDF_exemption_no_op_witness :
    pdfScanBody "jsPDF /Launch" = pdfScanNoExemption "jsPDF /Launch" ∧
    pdfPlainIndicator "/Launch" "Intenta lanzar un programa externo" ∈
      pdfScanBody "jsPDF /Launch" := by
  have h := pdf_jsPDF_exemption_no_op "jsPDF /Launch" (by decide)
  exact ⟨h.1, h.2 "/Launch" "Intenta lanzar un programa externo"
    (by decide) (by decide) (by decide)⟩

/-! ## Helper lemmas for the Office structural scan

The OLE indicator embeds a decimal count; to tell it apart from the VBA
indicator for an arbitrary count we show a decimal rendering always starts
with a digit. -/

theorem digitChar_isDigit {m : Nat} (h : m < 10) : (Nat.digitChar m).isDigit = true := by
  interval_cases m <;> decide

theorem toDigitsCore_ne_nil : ∀ (fuel n : Nat) (ds : List Char), ds ≠ [] →
    Nat.toDigitsCore 10 fuel n ds ≠ []
  | 0, n, ds, h => by simpa [Nat.toDigitsCore] using h
  | fuel + 1, n, ds, h => by
    simp only [Nat.toDigitsCore]
    split
    · simp
    · exact toDigitsCore_ne_nil fuel (n / 10) _ (by simp)

theorem toDigitsCore_digits : ∀ (fuel n : Nat) (ds : List Char),
    (∀ c ∈ ds, c.isDigit = true) →
    ∀ c ∈ Nat.toDigitsCore 10 fuel n ds, c.isDigit = true
  | 0, n, ds, h => by simpa [Nat.toDigitsCore] using h
  | fuel + 1, n, ds, h => by
    simp only [Nat.toDigitsCore]
    have hd : ∀ c ∈ (n % 10).digitChar :: ds, c.isDigit = true := by
      intro c hc
      rcases List.mem_cons.mp hc with rfl | hc
      · exact digitChar_isDigit (Nat.mod_lt _ (by omega))
      · exact h c hc
    split
    · exact hd
    · exact toDigitsCore_digits fuel (n / 10) _ hd

theorem toDigits_ne_nil (n : Nat) : Nat.toDigits 10 n ≠ [] := by
  unfold Nat.toDigits
  simp only [Nat.toDigitsCore]
  split
  · simp
  · exact toDigitsCore_ne_nil n (n / 10) _ (by simp)

theorem repr_data_head_isDigit (n : Nat) :
    ∃ c cs, (Nat.repr n).data = c :: cs ∧ c.isDigit = true := by
  obtain ⟨c, cs, hcs⟩ := List.exists_cons_of_ne_nil (toDigits_ne_nil n)
  refine ⟨c, cs, hcs, ?_⟩
  exact toDigitsCore_digits (n + 1) n [] (by simp) c
    (by rw [show Nat.toDigitsCore 10 (n + 1) n [] = Nat.toDigits 10 n from rfl, hcs]; simp)

theorem vba_ne_ole (M : Nat) : vbaIndicator ≠ oleIndicator M := by
  intro h
  have hd : vbaIndicator.data = (oleIndicator M).data := congrArg String.data h
  have h9 := congrArg (fun l => (l.drop 9).head?) hd
  obtain ⟨c, cs, hcs, hdig⟩ := repr_data_head_isDigit M
  have hR : (oleIndicator M).data.drop 9 =
      (Nat.repr M).data ++ (" objeto(s) OLE incrustado(s)" : String).data := rfl
  simp only [hR] at h9
  rw [hcs] at h9
  have hM : (some 'M' : Option Char) = some c := h9
  have : c = 'M' := by injection hM.symm
  rw [this] at hdig
  exact absurd hdig (by decide)

/-- C9: a file that is not a valid ZIP container scans to no indicators;
otherwise the VBA indicator appears exactly when some entry name ends in
`vbaProject.bin`, and a single OLE indicator carrying the count `N` of
entries containing `embeddings/oleObject` appears exactly when `N > 0`. -/
theorem scan_office_structure_policy :
    scan_office_structure none = [] ∧
    ∀ names : List String,
      ((vbaIndicator ∈ scan_office_structure (some names)) ↔
        names.any (fun name => strEndsWith name "vbaProject.bin") = true) ∧
      (0 < (names.filter (fun f => strContains f "embeddings/oleObject")).length →
        (scan_office_structure (some names)).count
          (oleIndicator
            (names.filter (fun f => strContains f "embeddings/oleObject")).length) = 1) ∧
      ((names.filter (fun f => strContains f "embeddings/oleObject")).length = 0 →
        ∀ M, oleIndicator M ∉ scan_office_structure (some names)) ∧
      (∀ M, oleIndicator M ∈ scan_office_structure (some names) →
        oleIndicator M = oleIndicator
          (names.filter (fun f => strContains f "embeddings/oleObject")).length) := by
  refine ⟨rfl, fun names => ?_⟩
  have hshape : scan_office_structure (some names) =
      (if names.any (fun name => strEndsWith name "vbaProject.bin") then [vbaIndicator]
        else [])
        ++ (if (names.filter (fun f => strContains f "embeddings/oleObject")).length ≠ 0
          then [oleIndicator
            (names.filter (fun f => strContains f "embeddings/oleObject")).length]
          else []) := rfl
  refine ⟨⟨?_, ?_⟩, ?_, ?_, ?_⟩
  · intro hmem
    by_contra hA
    rw [Bool.not_eq_true] at hA
    rw [hshape] at hmem
    simp only [hA, Bool.false_eq_true, if_false, List.nil_append] at hmem
    exact absurd (eq_of_mem_ite_singleton hmem)
      (vba_ne_ole (names.filter (fun f => strContains f "embeddings/oleObject")).length)
  · intro hA
    rw [hshape]
    simp [hA]
  · intro hpos
    have hne : (names.filter (fun f => strContains f "embeddings/oleObject")).length ≠ 0 := by
      omega
    rw [hshape, if_pos hne, List.count_append]
    cases hA : names.any (fun name => strEndsWith name "vbaProject.bin") with
    | false => simp
    | true =>
      have hne2 : oleIndicator
          (names.filter (fun f => strContains f "embeddings/oleObject")).length ≠
          vbaIndicator :=
        Ne.symm (vba_ne_ole _)
      simp [List.count_cons, hne2]
  · intro h0 M hmem
    rw [hshape] at hmem
    simp only [h0] at hmem
    rw [if_neg (show ¬(0 : Nat) ≠ 0 from fun hcon => hcon rfl),
      List.append_nil] at hmem
    exact absurd (eq_of_mem_ite_singleton hmem) (Ne.symm (vba_ne_ole M))
  · intro M hmem
    rw [hshape] at hmem
    rcases List.mem_append.mp hmem with h1 | h1
    · exact absurd (eq_of_mem_ite_singleton h1) (Ne.symm (vba_ne_ole M))
    · exact eq_of_mem_ite_singleton h1

/-- Witness for C9 (the spec's concrete test): an archive with
`word/vbaProject.bin` and three `embeddings/oleObject` entries yields the
VBA indicator and one OLE indicator counting 3. -/
theorem scan_office_structure_policy_witness :
    vbaIndicator ∈ scan_office_structure (some ["word/vbaProject.bin",
      "word/embeddings/oleObject1.bin", "word/embeddings/oleObject2.bin",
      "word/embeddings/oleObject3.bin"]) ∧
    (scan_office_structure (some ["word/vbaProject.bin",
      "word/embeddings/oleObject1.bin", "word/embeddings/oleObject2.bin",
      "word/embeddings/oleObject3.bin"])).count (oleIndicator 3) = 1 := by
  have h := scan_office_structure_policy.2 ["word/vbaProject.bin",
    "word/embeddings/oleObject1.bin", "word/embeddings/oleObject2.bin",
    "word/embeddings/oleObject3.bin"]
  exact ⟨h.1.mpr (by decide), h.2.1 (by decide)⟩

/-! ## Error handling of the structural scans (C2) and determinism (C10) -/

/-- C2 (what the code actually does): a read failure during a structural
scan produces NO indicator at all — `scan_pdf_structure` and
`scan_office_structure` catch every exception themselves and return the
empty accumulation, so the error-indicator branch of `check_file_risk` is
unreachable and the failure is silently absorbed. -/
theorem structural_read_error_yields_no_indicator :
    (∀ out, scan_pdf_structure none out → out = []) ∧
    (∀ mime out, (mime = "application/pdf" ∨ mime ∈ OFFICE_MIMES) →
      check_file_risk ⟨none, none⟩ mime out → out = []) := by
  refine ⟨fun out h => h, fun mime out hm h => ?_⟩
  rcases hm with rfl | hm
  · simpa [check_file_risk] using h
  · by_cases hp : mime = "application/pdf"
    · subst hp
      simpa [check_file_risk] using h
    · rw [check_file_risk, if_neg hp, if_pos hm] at h
      simpa [scan_office_structure] using h

/-- Witness for C2's theorem: the empty output is the one produced for an
unreadable PDF. -/
theorem structural_read_error_yields_no_indicator_witness :
    ([] : List String) = [] :=
  structural_read_error_yields_no_indicator.2 "application/pdf" [] (Or.inl rfl)
    (by simp [check_file_risk, scan_pdf_structure])

/-- Counterexample to C10 as stated: on the content `/JavaScript /JS` the
dedup step `list(set(indicators))` admits both orders of the two distinct
indicators, so two runs of `analyze_risk` on identical input may return
different reports. -/
theorem analyze_risk_order_counterexample :
    analyze_risk ⟨some "/JavaScript /JS", none⟩ .null "application/pdf"
      ⟨true, [pdfPlainIndicator "/JavaScript" "Contiene código JavaScript",
        pdfPlainIndicator "/JS" "Contiene código JavaScript"]⟩ ∧
    analyze_risk ⟨some "/JavaScript /JS", none⟩ .null "application/pdf"
      ⟨true, [pdfPlainIndicator "/JS" "Contiene código JavaScript",
        pdfPlainIndicator "/JavaScript" "Contiene código JavaScript"]⟩ ∧
    (⟨true, [pdfPlainIndicator "/JavaScript" "Contiene código JavaScript",
        pdfPlainIndicator "/JS" "Contiene código JavaScript"]⟩ : RiskReport) ≠
      ⟨true, [pdfPlainIndicator "/JS" "Contiene código JavaScript",
        pdfPlainIndicator "/JavaScript" "Contiene código JavaScript"]⟩ := by
  have hb : pdfScanBody "/JavaScript /JS" =
      [pdfPlainIndicator "/JavaScript" "Contiene código JavaScript",
        pdfPlainIndicator "/JS" "Contiene código JavaScript"] := by decide
  refine ⟨⟨[pdfPlainIndicator "/JavaScript" "Contiene código JavaScript",
      pdfPlainIndicator "/JS" "Contiene código JavaScript"], ?_,
      by simp [check_metadata_risk, recursiveScan], rfl⟩,
    ⟨[pdfPlainIndicator "/JS" "Contiene código JavaScript",
      pdfPlainIndicator "/JavaScript" "Contiene código JavaScript"], ?_,
      by simp [check_metadata_risk, recursiveScan], rfl⟩, by decide⟩
  · show SetToList (pdfScanBody "/JavaScript /JS") _
    rw [hb]
    exact ⟨by decide, fun a => Iff.rfl⟩
  · show SetToList (pdfScanBody "/JavaScript /JS") _
    rw [hb]
    exact ⟨by decide, fun a => by simp [List.mem_cons]; tauto⟩

/-- C10 (amended): two runs of `analyze_risk` on identical input agree on
the `is_suspicious` flag and produce the same indicators up to a
permutation of the deduplicated PDF structural findings; order-for-order
equality is not guaranteed because the `set` enumeration order in
`list(set(...))` is not fixed by the program. -/
theorem analyze_risk_deterministic_up_to_perm (f : FileModel) (metadata : Meta)
    (mime : String) (r1 r2 : RiskReport)
    (h1 : analyze_risk f metadata mime r1) (h2 : analyze_risk f metadata mime r2) :
    r1.indicators.Perm r2.indicators ∧ r1.is_suspicious = r2.is_suspicious := by
  obtain ⟨s1, hs1, hi1, hf1⟩ := h1
  obtain ⟨s2, hs2, hi2, hf2⟩ := h2
  have hperm : s1.Perm s2 := by
    by_cases hp : mime = "application/pdf"
    · rw [check_file_risk, if_pos hp] at hs1 hs2
      cases hb : f.bytes? with
      | none =>
        rw [hb] at hs1 hs2
        rw [show s1 = [] from hs1, show s2 = [] from hs2]
      | some c =>
        rw [hb] at hs1 hs2
        exact setToList_perm hs1 hs2
    · rw [check_file_risk, if_neg hp] at hs1 hs2
      by_cases hm : mime ∈ OFFICE_MIMES
      · rw [if_pos hm] at hs1 hs2
        rw [hs1, hs2]
      · rw [if_neg hm] at hs1 hs2
        rw [hs1, hs2]
  have hindp : r1.indicators.Perm r2.indicators := by
    rw [hi1, hi2]
    exact hperm.append_left _
  refine ⟨hindp, ?_⟩
  rw [hf1, hf2, hindp.length_eq]

/-- Witness for C10's amended theorem at a concrete input. -/
theorem analyze_risk_deterministic_up_to_perm_witness :
    ([] : List String).Perm [] ∧ (false = false) := by
  have hrel : analyze_risk ⟨some "x", none⟩ .null "text/plain" ⟨false, []⟩ :=
    ⟨[], by simp [check_file_risk, OFFICE_MIMES],
      by simp [check_metadata_risk, recursiveScan], rfl⟩
  exact analyze_risk_deterministic_up_to_perm ⟨some "x", none⟩ .null "text/plain"
    ⟨false, []⟩ ⟨false, []⟩ hrel hrel

end Heuristics
